import Mathlib

/-!
# Verification of the soggy tunneled-protocol layer

Shallow embedding of the Rust sources of the `soggy` crate (a WebSocket
tunnel client providing TCP/HTTP/HTTPS emulation) and proofs about the
embedded operations.

Modelling conventions:
* Rust byte buffers (`Vec<u8>`, frame payloads) are `List Nat`, each entry
  a byte value `< 256`.
* Rust `String` values that only flow through concatenation are modelled by
  the `List Nat` of their UTF-8 bytes; address strings (which are split on
  ASCII separators) are modelled as `List Char`.
* Machine integers are `Nat` with explicit `% 2 ^ w` whenever the Rust code
  can overflow (the `u64` packing of connection IDs).
* `unwrap_throw`/`panic` aborts are `Option.none`; recoverable
  `Result<_, ConnectionError>` errors are `Except.error`.
* Splitting a Rust `&str` on the ASCII separators `"\r\n"`, `": "`, `' '`
  is performed here directly on the UTF-8 bytes.  This is exact: UTF-8 is
  self-synchronising, so the byte pair `[13, 10]` occurs in a valid UTF-8
  stream exactly where the string `"\r\n"` occurs, and likewise for the
  other ASCII separators.
-/

namespace Soggy

/-! ## Splitting combinators (Rust `str::split` on 1-, 2- and 3-element
separators, leftmost-first, non-overlapping, keeping empty segments). -/

/-- Prepend an element to the first segment of a split result. -/
def consHead {α : Type} (x : α) : List (List α) → List (List α)
  | [] => [[x]]
  | s :: ss => (x :: s) :: ss

/-- Split a list on a single-element separator, keeping empty segments,
like Rust `str::split(char)`. -/
def splitOnElem {α : Type} [DecidableEq α] (c : α) : List α → List (List α)
  | [] => [[]]
  | x :: rest =>
    if x = c then [] :: splitOnElem c rest
    else consHead x (splitOnElem c rest)

/-- Split a list on a two-element separator (leftmost, non-overlapping),
like Rust `str::split("\r\n")` on the underlying bytes. -/
def splitOn2 {α : Type} [DecidableEq α] (a b : α) : List α → List (List α)
  | [] => [[]]
  | [x] => [[x]]
  | x :: y :: rest =>
    if x = a ∧ y = b then [] :: splitOn2 a b rest
    else consHead x (splitOn2 a b (y :: rest))

/-- Split a list on a three-element separator (leftmost, non-overlapping),
like Rust `str::split("://")` on the characters. -/
def splitOn3 {α : Type} [DecidableEq α] (a b c : α) : List α → List (List α)
  | [] => [[]]
  | [x] => [[x]]
  | [x, y] => [[x, y]]
  | x :: y :: z :: rest =>
    if x = a ∧ y = b ∧ z = c then [] :: splitOn3 a b c rest
    else consHead x (splitOn3 a b c (y :: z :: rest))

theorem consHead_ne_nil {α : Type} (x : α) (l : List (List α)) :
    consHead x l ≠ [] := by
  cases l <;> simp [consHead]

theorem splitOnElem_ne_nil {α : Type} [DecidableEq α] (c : α) (l : List α) :
    splitOnElem c l ≠ [] := by
  cases l with
  | nil => simp [splitOnElem]
  | cons x rest =>
    simp only [splitOnElem]
    split
    · simp
    · exact consHead_ne_nil _ _

theorem splitOn2_ne_nil {α : Type} [DecidableEq α] (a b : α) (l : List α) :
    splitOn2 a b l ≠ [] := by
  match l with
  | [] => simp [splitOn2]
  | [x] => simp [splitOn2]
  | x :: y :: rest =>
    simp only [splitOn2]
    split
    · simp
    · exact consHead_ne_nil _ _

theorem splitOn3_ne_nil {α : Type} [DecidableEq α] (a b c : α) (l : List α) :
    splitOn3 a b c l ≠ [] := by
  match l with
  | [] => simp [splitOn3]
  | [x] => simp [splitOn3]
  | [x, y] => simp [splitOn3]
  | x :: y :: z :: rest =>
    simp only [splitOn3]
    split
    · simp
    · exact consHead_ne_nil _ _

/-! ## Decimal parsing (Rust `str::parse::<u16>` / `::<usize>` on the
ASCII bytes of the string).  Rust's `FromStr` for unsigned integers
accepts an optional leading `'+'`, then one or more ASCII digits, with a
checked accumulation that fails on overflow; because accumulation only
grows, overflow-checking is equivalent to a final bound check. -/

/-- The numeric value of an ASCII digit byte. -/
def digitVal (b : Nat) : Option Nat :=
  if 48 ≤ b ∧ b ≤ 57 then some (b - 48) else none

/-- Accumulate decimal digits; `none` on a non-digit byte. -/
def parseDigits (acc : Nat) : List Nat → Option Nat
  | [] => some acc
  | b :: rest =>
    match digitVal b with
    | some d => parseDigits (acc * 10 + d) rest
    | none => none

/-- Rust `str::parse` for an unsigned integer type with maximum `bound`,
on the UTF-8 bytes of the input string. -/
def parseUnsigned (bound : Nat) (s : List Nat) : Option Nat :=
  let digits := match s with
    | 43 :: rest => rest
    | _ => s
  if digits = [] then none
  else
    match parseDigits 0 digits with
    | some v => if v ≤ bound then some v else none
    | none => none

/-- `str::parse::<u16>` (the HTTP status code). -/
def parseU16 (s : List Nat) : Option Nat := parseUnsigned 65535 s

/-- `str::parse::<usize>` on the wasm32 target (`usize` is 32 bits there);
used for the `Content-Length` value. -/
def parseUsize (s : List Nat) : Option Nat := parseUnsigned (2 ^ 32 - 1) s

/-- UTF-8 bytes of a string literal (all literals we use are ASCII). -/
def strBytes (s : String) : List Nat := s.toList.map Char.toNat

/-! ## UTF-8 validation and lossy re-encoding

`String::from_utf8` succeeds exactly on valid UTF-8 (`utf8Valid`);
`String::from_utf8_lossy` replaces each maximal invalid subpart with
U+FFFD (bytes `EF BF BD`), following the error lengths of Rust's
`core::str` validation (`utf8Lossy`): an invalid lead byte consumes one
byte, an invalid continuation byte consumes the bytes seen so far of the
current sequence, and an incomplete sequence at end of input becomes a
single replacement character. -/

/-- Is `b` a UTF-8 continuation byte (`0x80..=0xBF`)? -/
def contByte (b : Nat) : Bool := 128 ≤ b && b ≤ 191

/-- Admissible second byte of a three-byte sequence with lead `c`
(`E0` excludes overlong forms, `ED` excludes surrogates). -/
def snd3Ok (c b : Nat) : Bool :=
  if c = 224 then 160 ≤ b && b ≤ 191
  else if c = 237 then 128 ≤ b && b ≤ 159
  else contByte b

/-- Admissible second byte of a four-byte sequence with lead `c`
(`F0` excludes overlong forms, `F4` enforces the U+10FFFF ceiling). -/
def snd4Ok (c b : Nat) : Bool :=
  if c = 240 then 144 ≤ b && b ≤ 191
  else if c = 244 then 128 ≤ b && b ≤ 143
  else contByte b

/-- Validity of a byte list as UTF-8 (Rust `str::from_utf8` succeeds). -/
def utf8Valid : List Nat → Bool
  | [] => true
  | c :: rest =>
    if c < 128 then utf8Valid rest
    else if 194 ≤ c ∧ c ≤ 223 then
      1 ≤ rest.length && contByte (rest.getD 0 0) && utf8Valid (rest.drop 1)
    else if 224 ≤ c ∧ c ≤ 239 then
      2 ≤ rest.length && snd3Ok c (rest.getD 0 0) && contByte (rest.getD 1 0) &&
        utf8Valid (rest.drop 2)
    else if 240 ≤ c ∧ c ≤ 244 then
      3 ≤ rest.length && snd4Ok c (rest.getD 0 0) && contByte (rest.getD 1 0) &&
        contByte (rest.getD 2 0) && utf8Valid (rest.drop 3)
    else false
termination_by l => l.length
decreasing_by all_goals simp [List.length_drop] <;> omega

/-- The UTF-8 encoding of U+FFFD REPLACEMENT CHARACTER. -/
def replChar : List Nat := [239, 191, 189]

/-- The bytes produced by `String::from_utf8_lossy` followed by
re-encoding (`&str` → bytes): valid sequences are copied and each maximal
invalid subpart becomes `replChar`. -/
def utf8Lossy : List Nat → List Nat
  | [] => []
  | c :: rest =>
    if c < 128 then c :: utf8Lossy rest
    else if 194 ≤ c ∧ c ≤ 223 then
      if h1 : rest = [] then replChar
      else if contByte (rest.getD 0 0) then c :: rest.getD 0 0 :: utf8Lossy (rest.drop 1)
      else replChar ++ utf8Lossy rest
    else if 224 ≤ c ∧ c ≤ 239 then
      if h1 : rest = [] then replChar
      else if snd3Ok c (rest.getD 0 0) then
        if h2 : rest.length = 1 then replChar
        else if contByte (rest.getD 1 0) then
          c :: rest.getD 0 0 :: rest.getD 1 0 :: utf8Lossy (rest.drop 2)
        else replChar ++ utf8Lossy (rest.drop 1)
      else replChar ++ utf8Lossy rest
    else if 240 ≤ c ∧ c ≤ 244 then
      if h1 : rest = [] then replChar
      else if snd4Ok c (rest.getD 0 0) then
        if h2 : rest.length = 1 then replChar
        else if contByte (rest.getD 1 0) then
          if h3 : rest.length = 2 then replChar
          else if contByte (rest.getD 2 0) then
            c :: rest.getD 0 0 :: rest.getD 1 0 :: rest.getD 2 0 :: utf8Lossy (rest.drop 3)
          else replChar ++ utf8Lossy (rest.drop 2)
        else replChar ++ utf8Lossy (rest.drop 1)
      else replChar ++ utf8Lossy rest
    else replChar ++ utf8Lossy rest
termination_by l => l.length
decreasing_by all_goals simp [List.length_drop] <;> omega

theorem consD_tail (l : List Nat) (h : l ≠ []) : l[0]?.getD 0 :: l.tail = l := by
  cases l with
  | nil => simp at h
  | cons a t => simp

theorem consD2_drop (l : List Nat) (h : 2 ≤ l.length) :
    l[0]?.getD 0 :: l[1]?.getD 0 :: l.drop 2 = l := by
  match l with
  | a :: b :: t => simp
  | [] => simp at h
  | [a] => simp at h

theorem consD3_drop (l : List Nat) (h : 3 ≤ l.length) :
    l[0]?.getD 0 :: l[1]?.getD 0 :: l[2]?.getD 0 :: l.drop 3 = l := by
  match l with
  | a :: b :: c :: t => simp
  | [] => simp at h
  | [a] => simp at h
  | [a, b] => simp at h

set_option maxHeartbeats 2000000 in
/-- On valid UTF-8, lossy re-encoding is the identity: `from_utf8_lossy`
returns the input bytes unchanged. -/
theorem utf8Lossy_of_valid : ∀ l : List Nat, utf8Valid l = true → utf8Lossy l = l := by
  intro l
  induction l using utf8Lossy.induct
  all_goals intro hv
  all_goals (try rw [utf8Valid] at hv)
  all_goals (try rw [utf8Lossy])
  all_goals (try split_ifs at hv ⊢)
  all_goals (try omega)
  all_goals (try simp_all [consD_tail, consD2_drop, consD3_drop])
  all_goals (try omega)

/-! ## HTTP request serialization (`src/macros.rs`, macro `http!`)

The macro builds a Rust `String` and returns its UTF-8 bytes
(`String::into_bytes`).  `method`, `path` and the header names/values are
Rust `String`s, modelled by their UTF-8 bytes; string concatenation
concatenates the byte lists.  With a body, the macro appends
`"Content-Length: {body.len()}\r\n\r\n"` and then
`String::from_utf8_lossy(body)`; without a body it appends `"\r\n"` and
no `Content-Length` header. -/

/-- Decimal ASCII bytes of `n` (Rust `Display` for an unsigned integer). -/
def natDecimalBytes (n : Nat) : List Nat := (Nat.toDigits 10 n).map Char.toNat

/-- One `"{name}: {value}\r\n"` line per header, in supplied order. -/
def headerLinesBytes (headers : List (List Nat × List Nat)) : List Nat :=
  (headers.map (fun h => h.1 ++ strBytes ": " ++ h.2 ++ strBytes "\r\n")).flatten

/-- The `http!` macro: serialized request bytes for a method, path,
header list and optional body. -/
def httpSerialize (method path : List Nat) (headers : List (List Nat × List Nat))
    (body : Option (List Nat)) : List Nat :=
  match body with
  | some b =>
    method ++ strBytes " " ++ path ++ strBytes " HTTP/1.1\r\n" ++
      headerLinesBytes headers ++
      strBytes "Content-Length: " ++ natDecimalBytes b.length ++ strBytes "\r\n\r\n" ++
      utf8Lossy b
  | none =>
    method ++ strBytes " " ++ path ++ strBytes " HTTP/1.1\r\n" ++
      headerLinesBytes headers ++ strBytes "\r\n"

/-! ## HTTP response reassembly
(`src/connection_apis/http.rs`, `HttpConnectionApi::send` message closure)

Per-connection accumulator state: `response_code` (`0` = status line not
yet parsed), `response_headers`, `response_body`, `content_length`.
`Option.none` models an `unwrap_throw` abort inside the closure. -/

/-- The four `Arc<Mutex<_>>` accumulator cells of the message closure. -/
structure RState where
  code : Nat
  headers : List (List Nat × List Nat)
  body : List Nat
  contentLength : Nat
deriving DecidableEq, Repr

/-- A delivered `HttpConnectionResponse` (the body is always `Some`,
modelled as the plain byte list). -/
structure RResponse where
  code : Nat
  headers : List (List Nat × List Nat)
  body : List Nat
deriving DecidableEq, Repr

/-- Accumulator state before any frame arrives. -/
def initialRState : RState := ⟨0, [], [], 0⟩

/-- The header `for_each` loop: each line is split on `": "`; the name is
the first piece and the value the second (`split.next()` twice, aborting
when the line has no `": "`); a `Content-Length` name (exact,
case-sensitive) re-parses the value as `usize` (aborting on failure) into
the expected length.  Headers accumulate in order onto `hs`. -/
def foldHeaders : List (List Nat) → List (List Nat × List Nat) → Nat →
    Option (List (List Nat × List Nat) × Nat)
  | [], hs, cl => some (hs, cl)
  | line :: rest, hs, cl =>
    match splitOn2 58 32 line with
    | n :: v :: _ =>
      if n = strBytes "Content-Length" then
        match parseUsize v with
        | some len => foldHeaders rest (hs ++ [(n, v)]) len
        | none => none
      else foldHeaders rest (hs ++ [(n, v)]) cl
    | _ => none

/-- Parsing of a frame while `response_code == 0`, after the UTF-8 decode
has succeeded: split into `"\r\n"` lines; the second
space-separated token of the first line parses as the `u16` status code
(abort if absent or unparsable); the non-empty lines before the first
blank line are headers (`foldHeaders`); every line after the first blank
line is appended to the body with the `"\r\n"` separators dropped. -/
def parseFirstFrame (st : RState) (frame : List Nat) : Option RState :=
  match splitOn2 13 10 frame with
  | [] => none
  | l0 :: rest =>
    match (splitOnElem 32 l0)[1]? with
    | none => none
    | some tok =>
      match parseU16 tok with
      | none => none
      | some code =>
        let headerLines := rest.takeWhile (fun l => l ≠ [])
        match foldHeaders headerLines st.headers st.contentLength with
        | none => none
        | some (hs, cl) =>
          let bodyLines := (rest.dropWhile (fun l => l ≠ [])).drop 1
          some ⟨code, hs, st.body ++ bodyLines.flatten, cl⟩

/-- First-frame processing including the `String::from_utf8` decode step
(aborting on invalid UTF-8) before `parseFirstFrame`. -/
def processFirstFrame (st : RState) (frame : List Nat) : Option RState :=
  if utf8Valid frame then parseFirstFrame st frame else none

/-- One invocation of the message closure: a frame with
`response_code == 0` goes through first-frame parsing, any other frame is
appended raw to the body; afterwards, if the body length has reached
`content_length`, a response is built from the current cells and the
callback is invoked with it (the cells are *not* reset). -/
def processFrame (st : RState) (frame : List Nat) : Option (RState × Option RResponse) :=
  match (if st.code = 0 then processFirstFrame st frame
         else some { st with body := st.body ++ frame }) with
  | none => none
  | some st' =>
    if st'.contentLength ≤ st'.body.length then
      some (st', some ⟨st'.code, st'.headers, st'.body⟩)
    else some (st', none)

/-- Feed a sequence of inbound frames to the message closure, collecting
the responses passed to the callback in order.  `none` if some frame
aborts the closure (the model stops at the first abort). -/
def runFrames (st : RState) : List (List Nat) → Option (List RResponse)
  | [] => some []
  | f :: fs =>
    match processFrame st f with
    | none => none
    | some (st', emitted) =>
      match runFrames st' fs with
      | none => none
      | some rs =>
        some (match emitted with
              | some r => r :: rs
              | none => rs)


/-! ## Helper lemmas for frames that are ASCII apart from their body -/

/-- A byte list that is pure ASCII. -/
def allAscii (l : List Nat) : Bool := l.all (fun b => b < 128)

theorem utf8Valid_ascii_append (a : List Nat) (b : List Nat)
    (h : allAscii a = true) : utf8Valid (a ++ b) = utf8Valid b := by
  induction a with
  | nil => simp
  | cons c t ih =>
    simp [allAscii] at h
    rw [List.cons_append, utf8Valid]
    simp only [if_pos h.1]
    exact ih (by simp only [allAscii, List.all_eq_true]; intro x hx; simpa using h.2 x hx)

theorem utf8Valid_ascii (a : List Nat) (h : allAscii a = true) :
    utf8Valid a = true := by
  have := utf8Valid_ascii_append a [] h
  simpa [utf8Valid] using this

/-- Does the byte list contain the two-byte subsequence `a, b`? -/
def hasPair (a b : Nat) : List Nat → Bool
  | [] => false
  | [_] => false
  | x :: y :: rest => (x = a && y = b) || hasPair a b (y :: rest)

theorem splitOn2_cons_sep (a b : Nat) (t : List Nat) :
    splitOn2 a b (a :: b :: t) = [] :: splitOn2 a b t := by
  rw [splitOn2]
  simp

theorem splitOn2_no_sep (a b : Nat) :
    ∀ l : List Nat, hasPair a b l = false → splitOn2 a b l = [l] := by
  intro l
  induction l with
  | nil => intro; rfl
  | cons x t ih =>
    intro h
    cases t with
    | nil => rfl
    | cons y t2 =>
      rw [hasPair] at h
      simp only [Bool.or_eq_false_iff, Bool.and_eq_false_iff] at h
      rw [splitOn2]
      have hxy : ¬ (x = a ∧ y = b) := by
        rcases h.1 with h1 | h1 <;> simp at h1 <;> tauto
      rw [if_neg hxy, ih h.2, consHead]

theorem splitOn2_sep_append (a b : Nat) (hab : a ≠ b) :
    ∀ (A t : List Nat), hasPair a b A = false →
      splitOn2 a b (A ++ a :: b :: t) = A :: splitOn2 a b t := by
  intro A
  induction A with
  | nil =>
    intro t _
    simpa using splitOn2_cons_sep a b t
  | cons x A2 ih =>
    intro t h
    cases A2 with
    | nil =>
      rw [List.cons_append, List.nil_append, splitOn2]
      rw [if_neg (by rintro ⟨rfl, rfl⟩; exact hab rfl)]
      rw [splitOn2_cons_sep, consHead]
    | cons y A3 =>
      rw [hasPair] at h
      simp only [Bool.or_eq_false_iff, Bool.and_eq_false_iff] at h
      have hxy : ¬ (x = a ∧ y = b) := by
        rcases h.1 with h1 | h1 <;> simp at h1 <;> tauto
      rw [List.cons_append, List.cons_append, splitOn2]
      rw [if_neg (by simpa using hxy)]
      rw [← List.cons_append, ih t h.2, consHead]

/-! ## Claim C1 — completion callback delivery
(`src/connection_apis/http.rs` lines 251–281)

The spec claims the completion callback fires exactly once — at the first
frame after which `response_body.len() >= content_length` — and that the
accumulator is then discarded.  In the code the accumulator cells are
never reset and the `message` listener stays registered
(`AddEventListenerOptions::new().once(false)`, `message_callback.forget()`),
so every later frame re-enters the closure with the completed state and
fires the callback again. -/

/-- C1 (code bug evidence): after a response completed on frame 1
(no `Content-Length`, so expected length 0), a further inbound frame
`[120]` appends to the retained body and invokes the callback a second
time: the run of two frames delivers two responses, not one. -/
theorem c1_callback_reinvoked_after_completion :
    runFrames initialRState [strBytes "HTTP/1.1 200 OK\r\n\r\n", [120]] =
      some [⟨200, [], []⟩, ⟨200, [], [120]⟩] := by
  have hv : utf8Valid (strBytes "HTTP/1.1 200 OK\r\n\r\n") = true :=
    utf8Valid_ascii _ (by decide)
  simp [runFrames, processFrame, processFirstFrame, hv, initialRState]
  decide

/-! ## Claim C2 — two-frame reassembly scenario
(`src/connection_apis/http.rs` lines 211–263)

The claim promises the scenario for *arbitrary* body byte values.  The
closure splits the whole first frame (a `String`) on `"\r\n"` and
re-joins the lines after the header block *without* the separators, so a
first-frame body chunk containing the bytes `13, 10` loses them; and the
first frame must decode as UTF-8 or the closure aborts.  The scenario
does hold for first-frame body chunks that are valid UTF-8 with no
embedded CRLF. -/

/-- Frame-1 prefix of the C2 scenario: status line, `Content-Length: 5`
header, blank line. -/
def c2Prefix : List Nat := strBytes "HTTP/1.1 200 OK\r\nContent-Length: 5\r\n\r\n"

/-- The status line of the C2 scenario. -/
def c2Status : List Nat := strBytes "HTTP/1.1 200 OK"

/-- The `Content-Length` header line of the C2 scenario. -/
def c2CL : List Nat := strBytes "Content-Length: 5"

/-- C2 (counterexample): with first-frame body chunk `"a\r\n"`
(bytes `[97, 13, 10]`) and second frame `[98, 99]`, the CRLF inside the
chunk is eaten by the line split: only one body byte is accumulated from
frame 1, the total never reaches the expected 5, and the two-frame run
delivers *no* response at all — the claim promises exactly one delivery
with the five bytes in arrival order. -/
theorem c2_crlf_body_chunk_counterexample :
    runFrames initialRState [c2Prefix ++ [97, 13, 10], [98, 99]] = some [] ∧
      (some [] : Option (List RResponse)) ≠
        some [⟨200, [(strBytes "Content-Length", strBytes "5")], [97, 13, 10, 98, 99]⟩] := by
  constructor
  · have hv : utf8Valid (c2Prefix ++ [97, 13, 10]) = true :=
      utf8Valid_ascii _ (by decide)
    simp [runFrames, processFrame, processFirstFrame, hv, initialRState]
    decide
  · decide

theorem c2_split (b1 : List Nat) (hcr : hasPair 13 10 b1 = false) :
    splitOn2 13 10 (c2Prefix ++ b1) = [c2Status, c2CL, [], b1] := by
  have h1 : c2Prefix ++ b1 = c2Status ++ 13 :: 10 :: (c2CL ++ 13 :: 10 :: 13 :: 10 :: b1) := by
    simp [c2Prefix, c2Status, c2CL, strBytes]
  rw [h1]
  rw [splitOn2_sep_append 13 10 (by decide) c2Status _ (by decide)]
  rw [splitOn2_sep_append 13 10 (by decide) c2CL _ (by decide)]
  rw [splitOn2_cons_sep]
  rw [splitOn2_no_sep 13 10 b1 hcr]

/-- C2 (amended): the scenario holds for body byte values restricted so
that the first-frame chunk is valid UTF-8 and contains no CRLF pair:
feeding the status line + `Content-Length: 5` header + 3 such body bytes
in frame 1, then any 2 bytes in frame 2, delivers exactly one response,
whose body is the 5 bytes in arrival order; and a response lacking
`Content-Length` (here with a `Server: x` header) completes immediately
on its first frame with an empty body. -/
theorem c2_reassembly_amended :
    (∀ b1 b2 : List Nat, b1.length = 3 → b2.length = 2 →
      utf8Valid b1 = true → hasPair 13 10 b1 = false →
      runFrames initialRState [c2Prefix ++ b1, b2] =
        some [⟨200, [(strBytes "Content-Length", strBytes "5")], b1 ++ b2⟩]) ∧
    runFrames initialRState [strBytes "HTTP/1.1 200 OK\r\nServer: x\r\n\r\n"] =
      some [⟨200, [(strBytes "Server", strBytes "x")], []⟩] := by
  constructor
  · intro b1 b2 h1 h2 hval hcr
    have hv : utf8Valid (c2Prefix ++ b1) = true := by
      rw [utf8Valid_ascii_append _ _ (by decide)]
      exact hval
    have hsplit := c2_split b1 hcr
    have hparse : parseFirstFrame ⟨0, [], [], 0⟩ (c2Prefix ++ b1) =
        some ⟨200, [(strBytes "Content-Length", strBytes "5")], b1, 5⟩ := by
      rw [parseFirstFrame, hsplit]
      have hne : c2CL ≠ [] := by decide
      have hs : (splitOnElem 32 c2Status)[1]? = some (strBytes "200") := by decide
      have hp : parseU16 (strBytes "200") = some 200 := by decide
      have ht : [c2CL, [], b1].takeWhile (fun l => l ≠ []) = [c2CL] := by
        simp [List.takeWhile_cons, hne]
      have hh : foldHeaders [c2CL] [] 0 =
          some ([(strBytes "Content-Length", strBytes "5")], 5) := by decide
      have hb : [c2CL, [], b1].dropWhile (fun l => l ≠ []) = [[], b1] := by
        simp [List.dropWhile_cons, hne]
      simp only [hs, hp, ht, hh, hb]
      simp
    simp [runFrames, processFrame, processFirstFrame, hv, hparse, initialRState, h1, h2]
  · have hv : utf8Valid (strBytes "HTTP/1.1 200 OK\r\nServer: x\r\n\r\n") = true :=
      utf8Valid_ascii _ (by decide)
    simp [runFrames, processFrame, processFirstFrame, hv, initialRState]
    decide

/-- C2 witness: the amended scenario instantiated at the concrete body
bytes `"abc"` + `"de"`. -/
theorem c2_reassembly_amended_witness :
    runFrames initialRState [c2Prefix ++ [97, 98, 99], [100, 101]] =
      some [⟨200, [(strBytes "Content-Length", strBytes "5")], [97, 98, 99, 100, 101]⟩] := by
  have h := c2_reassembly_amended.1 [97, 98, 99] [100, 101] (by decide) (by decide)
    (utf8Valid_ascii _ (by decide)) (by decide)
  simpa using h

/-! ## Claim C10 — abort conditions of the first-frame parser
(`src/connection_apis/http.rs` lines 198–245)

The claim lists preconditions on the first inbound frame and states that
any frame violating one of them aborts the handler (an `unwrap_throw`)
rather than producing an error value or a response. -/

/-- The preconditions of claim C10 on a first inbound frame: the bytes
are valid UTF-8; the first CRLF-delimited line has a second
space-separated token parsing as a decimal `u16`; and every non-empty
line before the first blank line contains the separator `": "` (i.e.
splitting on `": "` yields at least two pieces). -/
def goodFirstFrame (frame : List Nat) : Bool :=
  utf8Valid frame &&
    (match splitOn2 13 10 frame with
     | [] => false
     | l0 :: rest =>
       (match (splitOnElem 32 l0)[1]? with
        | none => false
        | some tok => (parseU16 tok).isSome) &&
       (rest.takeWhile (fun l => l ≠ [])).all
         (fun line => 2 ≤ (splitOn2 58 32 line).length))

theorem foldHeaders_none_of_bad (lines : List (List Nat)) :
    ∀ (hs : List (List Nat × List Nat)) (cl : Nat) (line : List Nat),
      line ∈ lines → (splitOn2 58 32 line).length < 2 →
      foldHeaders lines hs cl = none := by
  induction lines with
  | nil =>
    intro hs cl line hmem
    simp at hmem
  | cons l rest ih =>
    intro hs cl line hmem hbad
    rw [foldHeaders]
    rcases List.mem_cons.mp hmem with rfl | hmem2
    · rcases hsplit : splitOn2 58 32 line with _ | ⟨n, _ | ⟨v, rest2⟩⟩
      · simp [hsplit]
      · simp [hsplit]
      · rw [hsplit] at hbad
        simp at hbad
        omega
    · rcases hsplit : splitOn2 58 32 l with _ | ⟨n, _ | ⟨v, rest2⟩⟩
      · simp [hsplit]
      · simp [hsplit]
      · simp only [hsplit]
        split
        · rcases hp : parseUsize v with _ | len
          · simp [hp]
          · simp only [hp]
            exact ih _ _ line hmem2 hbad
        · exact ih _ _ line hmem2 hbad

/-- C10: a first inbound frame violating one of the preconditions of
`goodFirstFrame` aborts the message closure (modelled as `none`) — no
error value and no response is produced. -/
theorem c10_first_frame_abort_conditions (frame : List Nat)
    (h : goodFirstFrame frame = false) :
    processFirstFrame initialRState frame = none := by
  rw [processFirstFrame]
  by_cases hv : utf8Valid frame = true
  · rw [if_pos hv]
    rw [goodFirstFrame, hv] at h
    simp only [Bool.true_and] at h
    rw [parseFirstFrame]
    rcases hsp : splitOn2 13 10 frame with _ | ⟨l0, rest⟩
    · rfl
    · rw [hsp] at h
      rcases hget : (splitOnElem 32 l0)[1]? with _ | tok
      · simp [hget]
      · rcases hpar : parseU16 tok with _ | code
        · simp [hget, hpar]
        · simp only [hget, hpar, Option.isSome_some, Bool.true_and] at h
          rcases List.all_eq_false.mp h with ⟨line, hmem, hbadp⟩
          have hbad : (splitOn2 58 32 line).length < 2 := by
            simpa using hbadp
          have hfold := foldHeaders_none_of_bad _ initialRState.headers
            initialRState.contentLength line hmem hbad
          simp only [hget, hpar]
          rw [hfold]
  · simp [hv]

/-- C10 witness: the frame `[255]` (invalid UTF-8) violates the
preconditions and the closure aborts on it. -/
theorem c10_first_frame_abort_conditions_witness :
    processFirstFrame initialRState [255] = none :=
  c10_first_frame_abort_conditions [255] (by simp [goodFirstFrame, utf8Valid])

/-! ## Claim C3 — request serialization (`src/macros.rs`, `http!`)

The macro appends the body through `String::from_utf8_lossy`, so the
bytes after the blank line are the lossy re-encoding of the body — equal
to the raw body bytes exactly when the body is valid UTF-8.  The
`Content-Length` value is computed from the *raw* body length before the
lossy conversion. -/

/-- C3 (counterexample): serializing with the single-byte body `[255]`
(invalid UTF-8) emits `Content-Length: 1` followed by the three
replacement-character bytes `EF BF BD`, not the raw body byte — the
claim's "exactly the raw body bytes" fails. -/
theorem c3_non_utf8_body_counterexample :
    httpSerialize (strBytes "GET") (strBytes "/x")
        [(strBytes "Host", strBytes "a")] (some [255]) =
      strBytes "GET /x HTTP/1.1\r\nHost: a\r\nContent-Length: 1\r\n\r\n" ++
        [239, 191, 189] ∧
    httpSerialize (strBytes "GET") (strBytes "/x")
        [(strBytes "Host", strBytes "a")] (some [255]) ≠
      strBytes "GET /x HTTP/1.1\r\nHost: a\r\nContent-Length: 1\r\n\r\n" ++ [255] := by
  have hl : utf8Lossy [255] = [239, 191, 189] := by
    rw [utf8Lossy]
    simp [utf8Lossy, replChar]
  constructor
  · simp only [httpSerialize, hl]
    decide
  · simp only [httpSerialize, hl]
    decide

/-- C3 (amended): the serialized request is the request line
`"{method} {path} HTTP/1.1\r\n"`, one `"{name}: {value}\r\n"` line per
header in supplied order, a `Content-Length` header computed from the raw
body length if and only if a body is present, a blank line, and then the
UTF-8-lossy re-encoding of the body — which equals the raw body bytes
whenever the body is valid UTF-8.  The two quoted examples hold as
stated. -/
theorem c3_serialize_amended :
    (∀ (m p : List Nat) (hs : List (List Nat × List Nat)) (b : List Nat),
      utf8Valid b = true →
      httpSerialize m p hs (some b) =
        m ++ strBytes " " ++ p ++ strBytes " HTTP/1.1\r\n" ++ headerLinesBytes hs ++
          strBytes "Content-Length: " ++ natDecimalBytes b.length ++
          strBytes "\r\n\r\n" ++ b) ∧
    (∀ (m p : List Nat) (hs : List (List Nat × List Nat)),
      httpSerialize m p hs none =
        m ++ strBytes " " ++ p ++ strBytes " HTTP/1.1\r\n" ++ headerLinesBytes hs ++
          strBytes "\r\n") ∧
    httpSerialize (strBytes "GET") (strBytes "/x")
        [(strBytes "Host", strBytes "a")] none =
      strBytes "GET /x HTTP/1.1\r\nHost: a\r\n\r\n" ∧
    httpSerialize (strBytes "GET") (strBytes "/x")
        [(strBytes "Host", strBytes "a")] (some (strBytes "hi")) =
      strBytes "GET /x HTTP/1.1\r\nHost: a\r\nContent-Length: 2\r\n\r\nhi" := by
  refine ⟨?_, ?_, ?_, ?_⟩
  · intro m p hs b hval
    simp [httpSerialize, utf8Lossy_of_valid b hval]
  · intro m p hs
    simp [httpSerialize]
  · decide
  · have hl : utf8Lossy (strBytes "hi") = strBytes "hi" :=
      utf8Lossy_of_valid _ (utf8Valid_ascii _ (by decide))
    simp only [httpSerialize, hl]
    decide

/-- C3 witness: the body-carrying branch of the amended statement at the
concrete call of the claim (`body = "hi"`, valid UTF-8). -/
theorem c3_serialize_amended_witness :
    httpSerialize (strBytes "GET") (strBytes "/x")
        [(strBytes "Host", strBytes "a")] (some (strBytes "hi")) =
      strBytes "GET" ++ strBytes " " ++ strBytes "/x" ++ strBytes " HTTP/1.1\r\n" ++
        headerLinesBytes [(strBytes "Host", strBytes "a")] ++
        strBytes "Content-Length: " ++ natDecimalBytes (strBytes "hi").length ++
        strBytes "\r\n\r\n" ++ strBytes "hi" :=
  c3_serialize_amended.1 (strBytes "GET") (strBytes "/x")
    [(strBytes "Host", strBytes "a")] (strBytes "hi")
    (utf8Valid_ascii _ (by decide))

/-! ## Connection IDs (`src/id.rs`, `src/lib.rs`)

`ConnIdFactory::generate` reads the clock twice: once to compute the
elapsed time since the previous allocation (`since`), and once (after the
optional 1 ms sleep on counter saturation) to stamp `last_time` and the
ID.  We model each call as consuming an oracle pair `(t1, t2)` of those
two clock readings, in integral milliseconds.  `timesOk` states the
environment assumptions: the clock is monotonic across and within calls,
times stay below `2 ^ 48`, and the deliberate 1 ms sleep advances the
clock by at least one millisecond. -/

/-- `TLSVersion` (`src/lib.rs`). -/
inductive TLSVersion where
  | TLSv1_0
  | TLSv1_1
  | TLSv1_2
  | TLSv1_3
deriving DecidableEq, Repr

/-- `SocketCapability` (`src/lib.rs`). -/
inductive SocketCapability where
  | TCP
  | HTTP
  | HTTPS (v : TLSVersion)
deriving DecidableEq, Repr

/-- `Into<u8> for SocketCapability` (`src/id.rs`). -/
def capCode : SocketCapability → Nat
  | .TCP => 0
  | .HTTP => 10
  | .HTTPS .TLSv1_0 => 20
  | .HTTPS .TLSv1_1 => 21
  | .HTTPS .TLSv1_2 => 22
  | .HTTPS .TLSv1_3 => 23

/-- `From<u8> for SocketCapability` (`src/id.rs`): codes outside the
declared set abort (`panic`). -/
def capFromCode : Nat → Option SocketCapability
  | 0 => some .TCP
  | 10 => some .HTTP
  | 20 => some (.HTTPS .TLSv1_0)
  | 21 => some (.HTTPS .TLSv1_1)
  | 22 => some (.HTTPS .TLSv1_2)
  | 23 => some (.HTTPS .TLSv1_3)
  | _ => none

/-- `ConnId` (`src/id.rs`): `time` is the `u64` millisecond timestamp,
`conn_type` and `incr` are `u8`. -/
structure ConnId where
  time : Nat
  connType : Nat
  incr : Nat
deriving DecidableEq, Repr

/-- `Into<u64> for ConnId`:
`((time as u64) << 16) | ((conn_type as u64) << 8) | (incr as u64)`,
with the `u64` shift wrapping modulo `2 ^ 64`. -/
def connIdToU64 (c : ConnId) : Nat :=
  (((c.time <<< 16) % 2 ^ 64) ||| (c.connType <<< 8)) ||| c.incr

/-- The mutable state of `ConnIdFactory`: `last_time` and the
intra-millisecond counter `incr`. -/
structure ConnIdFactory where
  lastTime : Nat
  incr : Nat
deriving DecidableEq, Repr

/-- One `generate` call, given the two clock readings `t1` (used for
`since`) and `t2` (the reading stored into `last_time` and the ID, taken
after the optional sleep): if no millisecond elapsed, the counter
increments (wrapping to 0 with a sleep at 255), otherwise it resets. -/
def generateStep (st : ConnIdFactory) (t1 t2 : Nat) (cap : SocketCapability) :
    ConnIdFactory × ConnId :=
  let since := t1 - st.lastTime
  let incr2 := if since = 0 then (if st.incr = 255 then 0 else st.incr + 1) else 0
  (⟨t2, incr2⟩, ⟨t2 % 2 ^ 64, capCode cap, incr2⟩)

/-- Run a sequence of `generate` calls, collecting the produced IDs. -/
def runGenerate (st : ConnIdFactory) : List ((Nat × Nat) × SocketCapability) → List ConnId
  | [] => []
  | ((t1, t2), cap) :: rest =>
    (generateStep st t1 t2 cap).2 :: runGenerate (generateStep st t1 t2 cap).1 rest

/-- Environment assumptions on the clock-reading oracle of a run:
monotonicity (`lastTime ≤ t1 ≤ t2`), times below `2 ^ 48`, and the 1 ms
sleep on counter saturation advancing the clock. -/
def timesOk (st : ConnIdFactory) : List ((Nat × Nat) × SocketCapability) → Bool
  | [] => true
  | ((t1, t2), cap) :: rest =>
    st.lastTime ≤ t1 && t1 ≤ t2 && t2 < 2 ^ 48 &&
      (if t1 - st.lastTime = 0 && st.incr = 255 then t1 + 1 ≤ t2 else true) &&
      timesOk (generateStep st t1 t2 cap).1 rest

/-- C4 (counterexample): two allocations in the same millisecond with
capabilities `HTTPS(TLSv1.2)` (wire code 22) and then `TCP` (wire code 0)
produce IDs `1000·2^16 + 22·2^8 + 1` and `1000·2^16 + 2`: the second is
numerically *smaller*, although the clock was monotonic — the claimed
strict increase "with any capability arguments" fails because the
capability byte sits above the counter byte in the packing. -/
theorem c4_cross_capability_counterexample :
    timesOk ⟨1000, 0⟩ [((1000, 1000), .HTTPS .TLSv1_2), ((1000, 1000), .TCP)] = true ∧
    (runGenerate ⟨1000, 0⟩ [((1000, 1000), .HTTPS .TLSv1_2), ((1000, 1000), .TCP)]).map
        connIdToU64 = [65541633, 65536002] ∧
    ¬ ((runGenerate ⟨1000, 0⟩
          [((1000, 1000), .HTTPS .TLSv1_2), ((1000, 1000), .TCP)]).map
        connIdToU64).Chain' (· < ·) := by
  refine ⟨by decide, by decide, ?_⟩
  intro h
  rw [show (runGenerate ⟨1000, 0⟩
      [((1000, 1000), .HTTPS .TLSv1_2), ((1000, 1000), .TCP)]).map connIdToU64 =
      [65541633, 65536002] from by decide] at h
  simp [List.chain'_cons] at h

theorem capCode_le (c : SocketCapability) : capCode c ≤ 255 := by
  cases c with
  | TCP => decide
  | HTTP => decide
  | HTTPS v => cases v <;> decide

/-- Strict lexicographic order on the (time, counter) part of an ID. -/
def tLex (x y : ConnId) : Prop :=
  x.time < y.time ∨ (x.time = y.time ∧ x.incr < y.incr)

theorem tLex_trans {x y z : ConnId} (h1 : tLex x y) (h2 : tLex y z) : tLex x z := by
  unfold tLex at *
  omega

instance : IsTrans ConnId tLex := ⟨fun _ _ _ => tLex_trans⟩

theorem connIdToU64_eq (T c i : Nat) (hT : T < 2 ^ 48) (hc : c ≤ 255) (hi : i ≤ 255) :
    connIdToU64 ⟨T, c, i⟩ = T * 65536 + c * 256 + i := by
  unfold connIdToU64
  simp only [Nat.shiftLeft_eq]
  rw [Nat.mod_eq_of_lt (by omega : T * 2 ^ 16 < 2 ^ 64)]
  rw [show T * 2 ^ 16 = 2 ^ 16 * T by ring]
  rw [← Nat.mul_add_lt_is_or (by omega : c * 2 ^ 8 < 2 ^ 16) T]
  rw [show 2 ^ 16 * T + c * 2 ^ 8 = 2 ^ 8 * (2 ^ 8 * T + c) by ring]
  rw [← Nat.mul_add_lt_is_or (by omega : i < 2 ^ 8) (2 ^ 8 * T + c)]
  ring

theorem u64_lt_of_tLex {x y : ConnId} (h : tLex x y)
    (hxt : x.time < 2 ^ 48) (hxi : x.incr ≤ 255) (hxc : x.connType ≤ 255)
    (hyt : y.time < 2 ^ 48) (hyi : y.incr ≤ 255) (hyc : y.connType ≤ 255)
    (hc : x.connType = y.connType) :
    connIdToU64 x < connIdToU64 y := by
  obtain ⟨xt, xc, xi⟩ := x
  obtain ⟨yt, yc, yi⟩ := y
  simp only at hxt hxi hxc hyt hyi hyc hc
  rw [connIdToU64_eq xt xc xi hxt hxc hxi, connIdToU64_eq yt yc yi hyt hyc hyi]
  unfold tLex at h
  simp only at h
  omega

theorem u64_ne_of_tLex {x y : ConnId} (h : tLex x y)
    (hxt : x.time < 2 ^ 48) (hxi : x.incr ≤ 255) (hxc : x.connType ≤ 255)
    (hyt : y.time < 2 ^ 48) (hyi : y.incr ≤ 255) (hyc : y.connType ≤ 255) :
    connIdToU64 x ≠ connIdToU64 y := by
  obtain ⟨xt, xc, xi⟩ := x
  obtain ⟨yt, yc, yi⟩ := y
  simp only at hxt hxi hxc hyt hyi hyc
  rw [connIdToU64_eq xt xc xi hxt hxc hxi, connIdToU64_eq yt yc yi hyt hyc hyi]
  unfold tLex at h
  simp only at h
  omega

theorem chain'_head_congr {a b : ConnId} {l : List ConnId}
    (h : List.Chain' tLex (a :: l)) (ht : b.time = a.time) (hi : b.incr = a.incr) :
    List.Chain' tLex (b :: l) := by
  cases l with
  | nil => exact List.chain'_singleton _
  | cons c cs =>
    rw [List.chain'_cons] at h ⊢
    refine ⟨?_, h.2⟩
    have := h.1
    unfold tLex at *
    omega

theorem generateStep_spec (st : ConnIdFactory) (t1 t2 : Nat) (cap : SocketCapability)
    (h1 : st.lastTime ≤ t1) (h2 : t1 ≤ t2) (h3 : t2 < 2 ^ 48)
    (h4 : t1 - st.lastTime = 0 ∧ st.incr = 255 → t1 + 1 ≤ t2)
    (h5 : st.incr ≤ 255) (h6 : st.lastTime < 2 ^ 48) :
    tLex ⟨st.lastTime % 2 ^ 64, 0, st.incr⟩ (generateStep st t1 t2 cap).2 ∧
    (generateStep st t1 t2 cap).2.time = (generateStep st t1 t2 cap).1.lastTime % 2 ^ 64 ∧
    (generateStep st t1 t2 cap).2.incr = (generateStep st t1 t2 cap).1.incr ∧
    (generateStep st t1 t2 cap).1.incr ≤ 255 ∧
    (generateStep st t1 t2 cap).2.time < 2 ^ 48 ∧
    (generateStep st t1 t2 cap).2.incr ≤ 255 ∧
    (generateStep st t1 t2 cap).2.connType ≤ 255 := by
  have hcap := capCode_le cap
  unfold generateStep tLex
  simp only
  have e2 : t2 % 2 ^ 64 = t2 := Nat.mod_eq_of_lt (by omega)
  have e1 : st.lastTime % 2 ^ 64 = st.lastTime := Nat.mod_eq_of_lt (by omega)
  rw [e1, e2]
  split_ifs with hs1 hs2 <;>
    exact ⟨by omega, by simp, by simp, by omega, by omega, by omega, hcap⟩

theorem runGenerate_chain (calls : List ((Nat × Nat) × SocketCapability)) :
    ∀ st : ConnIdFactory, timesOk st calls = true → st.incr ≤ 255 →
      st.lastTime < 2 ^ 48 →
      List.Chain' tLex (⟨st.lastTime % 2 ^ 64, 0, st.incr⟩ :: runGenerate st calls) ∧
      ∀ id ∈ runGenerate st calls,
        id.time < 2 ^ 48 ∧ id.incr ≤ 255 ∧ id.connType ≤ 255 := by
  induction calls with
  | nil =>
    intro st _ _ _
    exact ⟨List.chain'_singleton _, by simp [runGenerate]⟩
  | cons c rest ih =>
    intro st htimes hincr hlast
    obtain ⟨⟨t1, t2⟩, cap⟩ := c
    rw [timesOk] at htimes
    simp only [Bool.and_eq_true, decide_eq_true_eq] at htimes
    obtain ⟨⟨⟨⟨ha, hb⟩, hc⟩, hd⟩, he⟩ := htimes
    have h4 : t1 - st.lastTime = 0 ∧ st.incr = 255 → t1 + 1 ≤ t2 := by
      intro hcond
      simp [hcond.1, hcond.2] at hd
      exact hd
    have step := generateStep_spec st t1 t2 cap ha hb hc h4 hincr hlast
    rw [runGenerate]
    obtain ⟨ihchain, ihbounds⟩ := ih (generateStep st t1 t2 cap).1 he step.2.2.2.1
      (by
        have : (generateStep st t1 t2 cap).1.lastTime = t2 := rfl
        omega)
    constructor
    · rw [List.chain'_cons]
      refine ⟨step.1, ?_⟩
      exact chain'_head_congr ihchain step.2.1 step.2.2.1
    · intro id hid
      rcases List.mem_cons.mp hid with rfl | hmem
      · exact ⟨step.2.2.2.2.1, step.2.2.2.2.2.1, step.2.2.2.2.2.2⟩
      · exact ihbounds id hmem

theorem runGenerate_connType (calls : List ((Nat × Nat) × SocketCapability)) :
    ∀ (st : ConnIdFactory) (cap : SocketCapability), (∀ p ∈ calls, p.2 = cap) →
      ∀ id ∈ runGenerate st calls, id.connType = capCode cap := by
  induction calls with
  | nil =>
    intro st cap _ id hid
    simp [runGenerate] at hid
  | cons c rest ih =>
    intro st cap hcap id hid
    obtain ⟨⟨t1, t2⟩, cp⟩ := c
    rw [runGenerate] at hid
    rcases List.mem_cons.mp hid with rfl | hmem
    · have : cp = cap := hcap ((t1, t2), cp) (by simp)
      simp [generateStep, this]
    · exact ih _ cap (fun p hp => hcap p (by simp [hp])) id hmem


/-- C4 (amended): under a monotonic millisecond clock (with times below
`2 ^ 48` and the saturation sleep advancing the clock), the IDs of any
`generate` sequence on one factory instance are pairwise distinct as
`u64` values for *any* capability arguments; and they are strictly
increasing in allocation order whenever all calls pass the *same*
capability (cross-capability ordering can invert within one millisecond,
as the counterexample shows). -/
theorem c4_id_generation_amended (st : ConnIdFactory) (calls : List ((Nat × Nat) × SocketCapability))
    (htimes : timesOk st calls = true) (hincr : st.incr ≤ 255)
    (hlast : st.lastTime < 2 ^ 48) :
    ((runGenerate st calls).map connIdToU64).Pairwise (fun a b => a ≠ b) ∧
    (∀ cap : SocketCapability, (∀ p ∈ calls, p.2 = cap) →
      ((runGenerate st calls).map connIdToU64).Chain' (· < ·)) := by
  obtain ⟨hchain, hbounds⟩ := runGenerate_chain calls st htimes hincr hlast
  have hp : (runGenerate st calls).Pairwise tLex :=
    (List.chain'_iff_pairwise.mp hchain).sublist (List.sublist_cons_self _ _)
  constructor
  · rw [List.pairwise_map]
    refine hp.imp_of_mem ?_
    intro a b ha hb hab
    obtain ⟨hta, hia, hca⟩ := hbounds a ha
    obtain ⟨htb, hib, hcb⟩ := hbounds b hb
    exact u64_ne_of_tLex hab hta hia hca htb hib hcb
  · intro cap hcap
    have hct := runGenerate_connType calls st cap hcap
    have hp2 : (runGenerate st calls).Pairwise
        (fun a b => connIdToU64 a < connIdToU64 b) := by
      refine hp.imp_of_mem ?_
      intro a b ha hb hab
      obtain ⟨hta, hia, hca⟩ := hbounds a ha
      obtain ⟨htb, hib, hcb⟩ := hbounds b hb
      exact u64_lt_of_tLex hab hta hia hca htb hib hcb
        ((hct a ha).trans (hct b hb).symm)
    rw [List.chain'_iff_pairwise, List.pairwise_map]
    exact hp2

/-- C4 witness: a concrete three-call run with capability `TCP`, two
calls in the same millisecond and one later: distinct and strictly
increasing. -/
theorem c4_id_generation_amended_witness :
    ((runGenerate ⟨1000, 0⟩
        [((1000, 1000), .TCP), ((1000, 1000), .TCP), ((1002, 1003), .TCP)]).map
      connIdToU64).Pairwise (fun a b => a ≠ b) ∧
    ((runGenerate ⟨1000, 0⟩
        [((1000, 1000), .TCP), ((1000, 1000), .TCP), ((1002, 1003), .TCP)]).map
      connIdToU64).Chain' (· < ·) := by
  have h := c4_id_generation_amended ⟨1000, 0⟩
    [((1000, 1000), .TCP), ((1000, 1000), .TCP), ((1002, 1003), .TCP)]
    (by decide) (by decide) (by decide)
  exact ⟨h.1, h.2 .TCP (by decide)⟩

/-! ## Address resolution (`src/connection.rs`, `SocketAddr::split_addr`)

Strings are modelled as `List Char`.  `addr.contains("://")` is modelled
as the `"://"` split having more than one part (a string contains the
separator exactly when splitting on it yields at least two pieces);
`replace('/', "")` is a filter; `split.next()?` after `skip(1)` is the
element at index 1 of the split.  Note that the element at index 1 is the
text between the first and second `"://"` occurrence — not everything
after the first one. -/

/-- Protocol default ports (`src/connection.rs` lines 41–45). -/
def defaultPort : SocketCapability → List Char
  | .TCP => ['0']
  | .HTTP => ['8', '0']
  | .HTTPS _ => ['4', '4', '3']

/-- `SocketAddr::split_addr` (`src/connection.rs` lines 33–52). -/
def splitAddr (cap : SocketCapability) (addr : List Char) : Option (List Char) :=
  if (splitOn3 ':' '/' '/' addr).length ≤ 1 then some addr
  else
    match (splitOn3 ':' '/' '/' addr).drop 1 with
    | [] => none
    | seg :: _ =>
      let a := seg.filter (fun ch => ch ≠ '/')
      match splitOnElem ':' a with
      | [] => none
      | host :: rp =>
        some (host ++ ':' :: (match rp with | p :: _ => p | [] => defaultPort cap))

/-- Claim C5's description of `split_addr`, word for word: the text after
the *first* `"://"` (everything after it), `'/'` characters stripped,
split on `':'` into host and port, with the protocol default when no port
segment exists. -/
def splitAddrClaim (cap : SocketCapability) (addr : List Char) : Option (List Char) :=
  if (splitOn3 ':' '/' '/' addr).length ≤ 1 then some addr
  else
    let after := List.intercalate [':', '/', '/'] ((splitOn3 ':' '/' '/' addr).drop 1)
    let a := after.filter (fun ch => ch ≠ '/')
    match splitOnElem ':' a with
    | [] => none
    | host :: rp =>
      some (host ++ ':' :: (match rp with | p :: _ => p | [] => defaultPort cap))

/-- The amended description: like `splitAddrClaim` but taking only the
text *between* the first and second `"://"` occurrence, and total. -/
def splitAddrAmended (cap : SocketCapability) (addr : List Char) : Option (List Char) :=
  if (splitOn3 ':' '/' '/' addr).length ≤ 1 then some addr
  else
    let after := ((splitOn3 ':' '/' '/' addr).drop 1).headD []
    let a := after.filter (fun ch => ch ≠ '/')
    some ((splitOnElem ':' a).headD [] ++ ':' ::
      ((splitOnElem ':' a).drop 1).headD (defaultPort cap))

/-- C5 (counterexample): on `"tcp://a://b"` the code resolves to
`"a:0"` (it reads only the segment between the two `"://"`), while the
claim's "text after the first `://` with `/` stripped" reading predicts
`"a:b"`. -/
theorem c5_double_scheme_counterexample :
    splitAddr .TCP "tcp://a://b".toList = some "a:0".toList ∧
    splitAddrClaim .TCP "tcp://a://b".toList = some "a:b".toList ∧
    some "a:0".toList ≠ some "a:b".toList := by
  refine ⟨by decide, by decide, by decide⟩

/-- C5 (amended): `split_addr` returns its input unchanged when it has no
`"://"`; otherwise it resolves from the text *between* the first and
second `"://"` (equal to the text after the first one whenever no second
occurrence exists), `'/'`-stripped, with the supplied or default port;
the three quoted examples hold as stated. -/
theorem c5_split_addr_amended :
    (∀ (cap : SocketCapability) (addr : List Char),
      splitAddr cap addr = splitAddrAmended cap addr) ∧
    splitAddr .HTTP "http://example.com".toList = some "example.com:80".toList ∧
    (∀ v : TLSVersion,
      splitAddr (.HTTPS v) "https://example.com:8443".toList =
        some "example.com:8443".toList) ∧
    splitAddr .TCP "10.0.0.1:9000".toList = some "10.0.0.1:9000".toList := by
  refine ⟨?_, by decide, fun v => by cases v <;> decide, by decide⟩
  intro cap addr
  rw [splitAddr, splitAddrAmended]
  split
  · rfl
  · rename_i hlen
    rcases hd : (splitOn3 ':' '/' '/' addr).drop 1 with _ | ⟨seg, tl⟩
    · exfalso
      have : (splitOn3 ':' '/' '/' addr).length ≤ 1 := by
        have := congrArg List.length hd
        simp at this
        omega
      exact hlen this
    · simp only [hd, List.headD_cons]
      rcases hs : splitOnElem ':' (seg.filter (fun ch => ch ≠ '/')) with _ | ⟨host, rp⟩
      · exact absurd hs (splitOnElem_ne_nil _ _)
      · simp only [hs, List.headD_cons]
        cases rp with
        | nil => simp
        | cons p tl2 => simp

/-- C6 (counterexample): for `"http://"` — which contains `"://"` with
nothing after it — `split_addr` returns `Some ":80"`, not `None`: the
`?` early-returns are dead code because Rust's `split` always yields a
piece. -/
theorem c6_none_unreachable_counterexample :
    splitAddr .HTTP "http://".toList = some ":80".toList ∧
    splitAddr .HTTP "http://".toList ≠ none := by
  refine ⟨by decide, by decide⟩

/-- C6 (amended): `split_addr` never returns `None` — for every
capability and every input it returns `Some` of a resolved address. -/
theorem c6_split_addr_total_amended (cap : SocketCapability) (addr : List Char) :
    (splitAddr cap addr).isSome = true := by
  rw [splitAddr]
  split
  · rfl
  · rename_i hlen
    rcases hd : (splitOn3 ':' '/' '/' addr).drop 1 with _ | ⟨seg, tl⟩
    · exfalso
      have : (splitOn3 ':' '/' '/' addr).length ≤ 1 := by
        have := congrArg List.length hd
        simp at this
        omega
      exact hlen this
    · simp only [hd]
      rcases hs : splitOnElem ':' (seg.filter (fun ch => ch ≠ '/')) with _ | ⟨host, rp⟩
      · exact absurd hs (splitOnElem_ne_nil _ _)
      · simp [hs]

/-! ## Claim C7 — send on a non-open socket
(`src/connection_apis/http.rs` 177–181, `tcp.rs` 96–100, `https.rs` 194–198)

Each API's `send` first checks `socket.ready_state() != 1` and returns a
recoverable `ConnectionError` before serializing anything, registering the
message listener, or transmitting.  The socket is modelled by its ready
state, the number of registered message listeners, and the list of frames
sent so far; `send` returns the `Result` together with the socket state
after the call.  (The body of `https.rs` past the guard is the
incomplete TLS sketch; its outgoing frame — the rustls record bytes — is
an opaque parameter here.) -/

/-- Observable state of one tunnel WebSocket. -/
structure SocketState where
  readyState : Nat
  listeners : Nat
  sentFrames : List (List Nat)
deriving DecidableEq, Repr

/-- `HttpConnectionRequest` (also the shape of `HttpsConnectionRequest`). -/
structure HttpConnectionRequest where
  method : List Nat
  path : List Nat
  headers : List (List Nat × List Nat)
  body : Option (List Nat)

/-- `TcpConnectionRequest`. -/
structure TcpConnectionRequest where
  body : List Nat

/-- `HttpConnectionApi::send`. -/
def sendHttp (s : SocketState) (data : HttpConnectionRequest) :
    Except String Unit × SocketState :=
  if s.readyState ≠ 1 then (.error "Connection is not open", s)
  else
    (.ok (), { s with
      listeners := s.listeners + 1,
      sentFrames := s.sentFrames ++ [httpSerialize data.method data.path data.headers data.body] })

/-- `TcpConnectionApi::send`. -/
def sendTcp (s : SocketState) (data : TcpConnectionRequest) :
    Except String Unit × SocketState :=
  if s.readyState ≠ 1 then (.error "Connection is not open", s)
  else
    (.ok (), { s with
      listeners := s.listeners + 1,
      sentFrames := s.sentFrames ++ [data.body] })

/-- `HttpsConnectionApi::send`; `tls` is the outgoing rustls record bytes
produced from the serialized request (opaque external computation). -/
def sendHttps (s : SocketState) (data : HttpConnectionRequest) (tls : List Nat) :
    Except String Unit × SocketState :=
  if s.readyState ≠ 1 then (.error "Connection is not open", s)
  else
    (.ok (), { s with
      listeners := s.listeners + 1,
      sentFrames := s.sentFrames ++ [tls] })

/-- C7: for each of the three connection APIs, `send` returns a
recoverable connection error exactly when the socket's ready state is not
1 (open); in that case the socket state is returned unchanged — nothing
is transmitted and no message listener is registered. -/
theorem c7_send_not_open_error (s : SocketState) (data : HttpConnectionRequest)
    (tdata : TcpConnectionRequest) (tls : List Nat) :
    (((sendHttp s data).1.isOk = true) ↔ s.readyState = 1) ∧
    (((sendTcp s tdata).1.isOk = true) ↔ s.readyState = 1) ∧
    (((sendHttps s data tls).1.isOk = true) ↔ s.readyState = 1) ∧
    (s.readyState ≠ 1 →
      sendHttp s data = (.error "Connection is not open", s) ∧
      sendTcp s tdata = (.error "Connection is not open", s) ∧
      sendHttps s data tls = (.error "Connection is not open", s)) := by
  unfold sendHttp sendTcp sendHttps
  by_cases h : s.readyState = 1 <;> simp [h, Except.isOk, Except.toBool]

/-- C7 witness: a socket in the `CONNECTING` ready state (0) rejects an
HTTP send and is left untouched. -/
theorem c7_send_not_open_error_witness :
    sendHttp ⟨0, 0, []⟩ ⟨strBytes "GET", strBytes "/", [], none⟩ =
      (.error "Connection is not open", ⟨0, 0, []⟩) :=
  ((c7_send_not_open_error ⟨0, 0, []⟩ ⟨strBytes "GET", strBytes "/", [], none⟩
    ⟨[]⟩ []).2.2.2 (by decide)).1

/-! ## Capabilities and the client (`src/lib.rs`, `src/client.rs`) -/

/-- `SocketCapability::from_string` (`src/lib.rs` lines 25–35). -/
def fromString (s : String) : Option SocketCapability :=
  if s = "tcp" then some .TCP
  else if s = "http" then some .HTTP
  else if s = "https_tls1_0" then some (.HTTPS .TLSv1_0)
  else if s = "https_tls1_1" then some (.HTTPS .TLSv1_1)
  else if s = "https_tls1_2" then some (.HTTPS .TLSv1_2)
  else if s = "https_tls1_3" then some (.HTTPS .TLSv1_3)
  else none

/-- ASCII lowercasing of one character.  (Rust `str::to_lowercase` is
Unicode-aware; the two coincide on ASCII, and every capability name the
lookup can accept is ASCII.) -/
def asciiLower (c : Char) : Char :=
  if 'A' ≤ c ∧ c ≤ 'Z' then Char.ofNat (c.toNat + 32) else c

/-- `String::to_lowercase`, restricted to the ASCII case mapping. -/
def lowercase (s : String) : String := String.mk (s.data.map asciiLower)

/-- `get_capabilities` (`src/lib.rs` lines 50–56): the statically declared
capability set of this build. -/
def getCapabilities : List SocketCapability := [.TCP, .HTTP, .HTTPS .TLSv1_2]

/-- The capability filter of `Client::new_with_capabilities`
(`src/client.rs` lines 38–49): lowercase each name and keep those
`from_string` recognizes. -/
def newWithCapabilities (caps : List String) : List SocketCapability :=
  caps.filterMap (fun s => fromString (lowercase s))

/-- A `Client` (the fields the claims are about). -/
structure Client where
  addr : String
  capabilities : List SocketCapability

/-- `Client::new`: default capabilities. -/
def clientNew (addr : String) : Client := ⟨addr, getCapabilities⟩

/-- `Client::new_with_capabilities`. -/
def clientNewWithCapabilities (addr : String) (caps : List String) : Client :=
  ⟨addr, newWithCapabilities caps⟩

/-- The discriminant order of the `TLSVersion` derive(Ord). -/
def tlsVersionOrd : TLSVersion → Nat
  | .TLSv1_0 => 0
  | .TLSv1_1 => 1
  | .TLSv1_2 => 2
  | .TLSv1_3 => 3

/-- `Iterator::max` over TLS versions (returns the last maximal element,
`none` on an empty iterator — the source then unwraps). -/
def maxTls (l : List TLSVersion) : Option TLSVersion :=
  l.foldl
    (fun acc v =>
      match acc with
      | none => some v
      | some w => if tlsVersionOrd w ≤ tlsVersionOrd v then some v else some w)
    none

/-- `Client::get_highest_tls_version` (`src/client.rs` lines 151–163). -/
def getHighestTlsVersion : Option TLSVersion :=
  maxTls (getCapabilities.filterMap
    (fun c => match c with | .HTTPS v => some v | _ => none))

/-- C9: the build's declared capability set is exactly
`[TCP, HTTP, HTTPS(TLSv1.2)]`, every `Client::new` client starts with
exactly that set, the TLS 1.0/1.1/1.3 capabilities are never declared,
and `get_highest_tls_version` returns TLS 1.2. -/
theorem c9_declared_capabilities :
    getCapabilities = [.TCP, .HTTP, .HTTPS .TLSv1_2] ∧
    (∀ addr : String, (clientNew addr).capabilities = getCapabilities) ∧
    (SocketCapability.HTTPS .TLSv1_0 ∉ getCapabilities ∧
      SocketCapability.HTTPS .TLSv1_1 ∉ getCapabilities ∧
      SocketCapability.HTTPS .TLSv1_3 ∉ getCapabilities) ∧
    getHighestTlsVersion = some .TLSv1_2 := by
  refine ⟨rfl, fun addr => rfl, by decide, by decide⟩

/-- C8 (counterexample): `new_with_capabilities(["https_tls1_3"])`
retains `HTTPS(TLSv1.3)`, which `get_capabilities()` does *not* declare —
the resulting capability set is not a subset of the declared set, because
`from_string` recognizes all six names, not just the declared three. -/
theorem c8_unsupported_capability_counterexample :
    newWithCapabilities ["https_tls1_3"] = [.HTTPS .TLSv1_3] ∧
    SocketCapability.HTTPS .TLSv1_3 ∉ getCapabilities := by
  refine ⟨by decide, by decide⟩

/-- C8 (amended): `new_with_capabilities` lowercases each supplied name
and retains exactly those that `from_string` *recognizes* (any of the six
capability names, declared or not): a capability is in the resulting
client's set precisely when some supplied name lowercases to a string
naming it. -/
theorem c8_new_with_capabilities_amended (addr : String) (names : List String)
    (c : SocketCapability) :
    c ∈ (clientNewWithCapabilities addr names).capabilities ↔
      ∃ s ∈ names, fromString (lowercase s) = some c := by
  simp [clientNewWithCapabilities, newWithCapabilities, List.mem_filterMap]

end Soggy
